import Mathlib

/-
Verification development for the BeverageIntentRecognition service.

Shallow embedding conventions:
* Python strings are Lean `String`; Python's substring test `needle in hay`
  is `strIn`; Python `str.lower()` is modelled ASCII-wise (`pyLower`),
  which agrees with Python on every keyword and literal that appears in
  the repository's rule tables (ASCII letters and CJK characters).
* Wall-clock timestamps (`time.time()`, `datetime.now()`) are explicit
  integer parameters (whole seconds) threaded through the stateful
  operations.
* Confidence scores are rationals (`ℚ`); the md5 hex digest used for
  cache keys is modelled as the identity on the hashed payload
  (a collision-free idealization of the hash).
* Fallible code returns `Except`/`Option`.
-/

namespace BevIntent

/-! ## String machinery (Python `in`, `str.lower`) -/

/-- Leading match: the first list is a leading segment of the second. -/
def leadsList : List Char → List Char → Bool
  | [], _ => true
  | _ :: _, [] => false
  | a :: as, b :: bs => a == b && leadsList as bs

/-- Substring occurrence over character lists (Python `needle in hay`). -/
def hasSub (n : List Char) : List Char → Bool
  | [] => leadsList n []
  | c :: cs => leadsList n (c :: cs) || hasSub n cs

/-- Python's `needle in hay` on strings. -/
def strIn (needle hay : String) : Bool := hasSub needle.data hay.data

/-- Python `str.lower()` on one character, modelled on the ASCII range
(identity on every non-ASCII character, in particular on CJK). -/
def lowerChar (c : Char) : Char :=
  if 'A' ≤ c ∧ c ≤ 'Z' then Char.ofNat (c.toNat + 32) else c

/-- Python `str.lower()`, modelled ASCII-wise. -/
def pyLower (s : String) : String := String.mk (s.data.map lowerChar)

/-! ## Data model (`app/models/intent.py`) -/

/-- The six-label `IntentType` enumeration. -/
inductive IntentType
  | grab_drink
  | deliver_drink
  | recommend_drink
  | cancel_order
  | query_status
  | modify_order
deriving DecidableEq, Repr

/-- Entity values carried in the `entities` mapping: strings, or the
integers produced by the quantity rules. -/
inductive EntityVal
  | str (s : String)
  | int (n : Nat)
deriving DecidableEq, Repr

/-- Whether an entity value is numeric (Python `isinstance(value, (int, float))`). -/
def EntityVal.isNum : EntityVal → Bool
  | .int _ => true
  | .str _ => false

/-- The `IntentResult` pydantic model. Entities are an insertion-ordered
association list, matching Python dict insertion order. -/
structure IntentResult where
  intent : IntentType
  confidence : ℚ
  entities : List (String × EntityVal)
  raw_text : Option String
  processing_time_ms : Option Nat
deriving DecidableEq, Repr

/-! ## Fallback keyword tables (`intent_service.py`, `_fallback_analysis`) -/

def deliver_keywords : List String :=
  ["送", "递送", "送到", "送给", "拿给", "deliver", "bring", "take to"]

def recommend_keywords : List String :=
  ["推荐", "建议", "什么", "有没有", "清爽", "提神", "暖胃", "解腻",
   "recommend", "suggest", "what", "refreshing", "energizing"]

def cancel_keywords : List String :=
  ["取消", "算了", "不要了", "撤销", "不要", "cancel", "never mind", "forget"]

def query_keywords : List String :=
  ["好了吗", "做好了", "完成了", "状态", "进度", "怎么样了",
   "ready", "done", "finished", "status", "how"]

def modify_keywords : List String :=
  ["改成", "换成", "修改", "改为", "变成", "change", "modify", "switch"]

/-- Intent selection chain of `_fallback_analysis`. The keyword membership
tests run against the raw `user_input` (the code computes
`user_input_lower` but never uses it in this chain). -/
def fallbackIntent (user_input : String) : IntentType :=
  if deliver_keywords.any (fun k => strIn k user_input) then .deliver_drink
  else if recommend_keywords.any (fun k => strIn k user_input) then .recommend_drink
  else if cancel_keywords.any (fun k => strIn k user_input) then .cancel_order
  else if query_keywords.any (fun k => strIn k user_input) then .query_status
  else if modify_keywords.any (fun k => strIn k user_input) then .modify_order
  else .grab_drink

/-! ## Fallback entity extraction (`_extract_entities_fallback`) -/

def drinks_cn : List String :=
  ["拿铁", "美式", "咖啡", "茶", "奶茶", "可乐", "雪碧", "橙汁", "果汁", "水"]

def drinks_en : List String :=
  ["latte", "americano", "coffee", "tea", "milk tea", "cola", "coke",
   "sprite", "juice", "water", "espresso", "cappuccino", "mocha"]

def brands : List String :=
  ["可口可乐", "coca-cola", "coke", "雪碧", "sprite", "百事", "pepsi", "星巴克", "starbucks"]

def sizes_cn : List String := ["大杯", "中杯", "小杯", "超大杯", "瓶装"]
def sizes_en : List String := ["large", "medium", "small", "extra large", "bottle"]

def temps_cn : List String := ["热", "冰", "温", "常温"]
def temps_en : List String := ["hot", "iced", "cold", "warm", "room temperature"]

def prefs_cn : List String := ["提神", "清爽", "暖胃", "解腻"]
def prefs_en : List String := ["energizing", "refreshing", "warming", "light"]

def locations_cn : List String := ["会议室", "办公室", "前台", "休息室", "教室", "食堂"]
def locations_en : List String :=
  ["meeting room", "office", "reception", "lounge", "classroom", "cafeteria"]

/-- The `chinese_numbers` dict, in insertion (iteration) order. -/
def chinese_numbers : List (String × Nat) :=
  [("一", 1), ("两", 2), ("二", 2), ("三", 3), ("四", 4), ("五", 5)]

/-- Value of digit characters accumulated left to right (Python `int(...)`). -/
def digitsToNat (ds : List Char) : Nat :=
  ds.foldl (fun acc c => acc * 10 + (c.toNat - '0'.toNat)) 0

/-- Python `\s` on the ASCII range. -/
def isPySpace (c : Char) : Bool :=
  c == ' ' || c == '\t' || c == '\n' || c == '\r' || c == '\x0b' || c == '\x0c'

/-- Does the rest of the text, right after a digit run, satisfy the unit part
of the quantity regex `(?:[杯瓶个份]|(?:\s*(?:cup|bottle|glass|piece)s?))`?
The trailing `s?` never constrains match success. -/
def unitAfter (rest : List Char) : Bool :=
  (match rest with
   | c :: _ => c == '杯' || c == '瓶' || c == '个' || c == '份'
   | [] => false)
  ||
  (let r := rest.dropWhile isPySpace
   leadsList "cup".data r || leadsList "bottle".data r ||
   leadsList "glass".data r || leadsList "piece".data r)

/-- `re.search` of the quantity pattern `(\d+)(?:[杯瓶个份]|...)`: leftmost
match position wins; the digit run is maximal (shorter runs at the same
position leave the same unit suffix, so greedy matching is faithful);
returns the captured integer. -/
def quantitySearch : List Char → Option Nat
  | [] => none
  | c :: cs =>
    if c.isDigit then
      let ds := (c :: cs).takeWhile Char.isDigit
      let rest := (c :: cs).dropWhile Char.isDigit
      if unitAfter rest then some (digitsToNat ds) else quantitySearch cs
    else quantitySearch cs

/-- Conditionally append one entity entry (Python `entities[k] = v` guarded
by the surrounding `if`/`break`). -/
def addEnt (es : List (String × EntityVal)) (k : String) :
    Option EntityVal → List (String × EntityVal)
  | none => es
  | some v => es ++ [(k, v)]

/-- First element of the scan list occurring in the lowered input
(the `for ...: if lit in user_input.lower(): ...; break` pattern). -/
def firstLit (lits : List String) (low : String) : Option String :=
  lits.find? (fun lit => strIn lit low)

/-- `_extract_entities_fallback`: first-match-wins scans over the fixed
literal lists, in source order; Chinese-numeral quantity is checked on the
raw input before the digit regex runs on the lowered input, and the regex
result is discarded when a numeral already set the quantity. -/
def extractEntitiesFallback (user_input : String) : List (String × EntityVal) :=
  let low := pyLower user_input
  let e1 := addEnt [] "drink_name" ((firstLit (drinks_cn ++ drinks_en) low).map .str)
  let e2 := addEnt e1 "brand" ((firstLit brands low).map .str)
  let e3 := addEnt e2 "size" ((firstLit (sizes_cn ++ sizes_en) low).map .str)
  let e4 := addEnt e3 "temperature" ((firstLit (temps_cn ++ temps_en) low).map .str)
  let e5 := addEnt e4 "preference" ((firstLit (prefs_cn ++ prefs_en) low).map .str)
  let e6 := addEnt e5 "location" ((firstLit (locations_cn ++ locations_en) low).map .str)
  let cnQty := (chinese_numbers.find? (fun p => strIn p.1 user_input)).map (·.2)
  let qty := match cnQty with
    | some n => some n
    | none => quantitySearch low.data
  addEnt e6 "quantity" (qty.map .int)

/-- The whole of `_fallback_analysis`, with the elapsed wall-clock
milliseconds as an explicit parameter. The Python literal `0.6` is the
exact rational `mkRat 3 5`. -/
def fallbackAnalysis (user_input error_info : String)
    (include_raw_response : Bool) (elapsed_ms : Nat) : IntentResult :=
  { intent := fallbackIntent user_input
    confidence := mkRat 3 5
    entities := extractEntitiesFallback user_input
    raw_text :=
      if include_raw_response then some ("Fallback analysis: " ++ error_info) else none
    processing_time_ms := some elapsed_ms }

/-! ## Intent analysis orchestration (`analyze_intent`) -/

/-- Outcome of `json.loads` + field mapping on a successful LLM response:
either a well-formed `(intent, confidence, entities)` triple, or a
`json.JSONDecodeError`/`KeyError`/`ValueError` diagnostic. JSON parsing
itself is abstracted into this value. -/
inductive LLMParse
  | parsed (intent : IntentType) (confidence : ℚ) (entities : List (String × EntityVal))
  | unparsable (err : String)
deriving DecidableEq

/-- Outcome of `call_llm_api`: success carries the raw content together
with what parsing it yields; failure carries `error_message`. -/
inductive LLMOutcome
  | ok (content : String) (p : LLMParse)
  | failed (error_message : String)
deriving DecidableEq

/-- The LLM path fails when the client reports failure or its output is
unparsable. -/
def llmPathFails : LLMOutcome → Bool
  | .ok _ (.parsed _ _ _) => false
  | .ok _ (.unparsable _) => true
  | .failed _ => true

/-- `IntentClassificationService.analyze_intent`, as a function of the
user input and the (abstracted) LLM call outcome. -/
def analyzeIntent (user_input : String) (outcome : LLMOutcome)
    (include_raw_response : Bool) (elapsed_ms : Nat) : IntentResult :=
  match outcome with
  | .ok content (.parsed i c es) =>
      { intent := i
        confidence := c
        entities := es
        raw_text := if include_raw_response then some content else none
        processing_time_ms := some elapsed_ms }
  | .ok _ (.unparsable e) =>
      fallbackAnalysis user_input ("LLM parsing error: " ++ e)
        include_raw_response elapsed_ms
  | .failed msg =>
      fallbackAnalysis user_input ("LLM API failed: " ++ msg)
        include_raw_response elapsed_ms

/-! ## Spec-side description of the fallback priority choice (for C1) -/

/-- The claim's fixed priority order: keyword set paired with the intent
it selects, first match wins. -/
def priorityTable : List (List String × IntentType) :=
  [(deliver_keywords, .deliver_drink),
   (recommend_keywords, .recommend_drink),
   (cancel_keywords, .cancel_order),
   (query_keywords, .query_status),
   (modify_keywords, .modify_order)]

/-- Modelled from the claim's wording: the intent of the first row of the
priority table whose keyword set has a member occurring in the input,
`grab_drink` when no keyword set matches. -/
def claimPriorityIntent (user_input : String) : IntentType :=
  ((priorityTable.find? (fun row => row.1.any (fun k => strIn k user_input))).map
    (fun row => row.2)).getD .grab_drink

/-! ## Circuit breaker (`llm_service.py`, `CircuitBreaker`) -/

/-- The `state` string field: `"CLOSED"`, `"OPEN"`, `"HALF_OPEN"`. -/
inductive CBState
  | closed
  | opened
  | halfOpen
deriving DecidableEq, Repr

/-- The `CircuitBreaker` object's fields. Timestamps are integer seconds. -/
structure CircuitBreaker where
  failure_threshold : Nat
  recovery_timeout : Int
  failure_count : Nat
  last_failure_time : Option Int
  state : CBState
deriving DecidableEq, Repr

/-- `CircuitBreaker.__init__(failure_threshold=5, recovery_timeout=60)`. -/
def CircuitBreaker.init (failure_threshold : Nat) (recovery_timeout : Int) :
    CircuitBreaker :=
  { failure_threshold := failure_threshold
    recovery_timeout := recovery_timeout
    failure_count := 0
    last_failure_time := none
    state := .closed }

/-- `can_execute()`, at wall-clock time `now`; returns the decision and
the (possibly Open→HalfOpen transitioned) breaker. -/
def canExecute (cb : CircuitBreaker) (now : Int) : Bool × CircuitBreaker :=
  match cb.state with
  | .closed => (true, cb)
  | .opened =>
    match cb.last_failure_time with
    | some t =>
      if now - t > cb.recovery_timeout then (true, { cb with state := .halfOpen })
      else (false, cb)
    | none => (false, cb)
  | .halfOpen => (true, cb)

/-- `on_success()`. -/
def onSuccess (cb : CircuitBreaker) : CircuitBreaker :=
  { cb with failure_count := 0, state := .closed }

/-- `on_failure()`, at wall-clock time `now`. -/
def onFailure (cb : CircuitBreaker) (now : Int) : CircuitBreaker :=
  let cb' := { cb with failure_count := cb.failure_count + 1, last_failure_time := some now }
  if cb'.failure_count ≥ cb'.failure_threshold then { cb' with state := .opened } else cb'

/-- Four consecutive recorded failures on a freshly constructed breaker
(threshold 5, recovery timeout 60 s). -/
def failFour (t1 t2 t3 t4 : Int) : CircuitBreaker :=
  onFailure (onFailure (onFailure (onFailure (CircuitBreaker.init 5 60) t1) t2) t3) t4

/-- Five consecutive recorded failures on a freshly constructed breaker. -/
def failFive (t1 t2 t3 t4 t5 : Int) : CircuitBreaker :=
  onFailure (failFour t1 t2 t3 t4) t5

/-! ## Cache service (`cache_service.py`)

The remote (Redis) tier is not configured in this model (`get_redis_client`
returns `None`), so `get`/`set` exercise the local-tier paths, matching a
deployment without the optional store. `result.dict()` followed by
`IntentResult(**data)` is field-identity, so the local map stores the typed
value. The md5 hex digest in `_generate_cache_key` is modelled as the
identity on the hashed payload. -/

/-- `_generate_cache_key`: `"intent:" + md5(f"{user_input}:{context or ''}")`.
Python `context or ''` maps both an absent context and the (falsy) empty
string to `''`. -/
def generateCacheKey (user_input : String) (context : Option String) : String :=
  "intent:" ++ user_input ++ ":" ++ context.getD ""

/-- Local cache tier: `_local_cache` and `_local_cache_timestamps`, which
are always written together, merged into one insertion-ordered map from
key to (stored result, creation timestamp). -/
structure CacheState where
  store : List (String × (IntentResult × Int))
deriving DecidableEq

/-- `CacheService.get(user_input, context)` at time `now` with TTL `ttl`:
returns the hit (if any) and the state left behind (an expired entry is
evicted). -/
def cacheGet (st : CacheState) (user_input : String) (context : Option String)
    (now ttl : Int) : Option IntentResult × CacheState :=
  let key := generateCacheKey user_input context
  match st.store.lookup key with
  | none => (none, st)
  | some (data, ts) =>
    if now - ts > ttl then
      (none, ⟨st.store.filter (fun p => !(p.1 == key))⟩)
    else
      (some data, st)

/-- One entry survives `_cleanup_local_cache` at time `now` iff its age is
not above the TTL. -/
def cacheFresh (now ttl : Int) (p : String × (IntentResult × Int)) : Bool :=
  !decide (now - p.2.2 > ttl)

/-- `CacheService.set(user_input, result, context)` at time `now`: dict
assignment under the derived key with a fresh timestamp, followed by the
opportunistic `_cleanup_local_cache` sweep. -/
def cacheSet (st : CacheState) (user_input : String) (result : IntentResult)
    (context : Option String) (now ttl : Int) : CacheState :=
  let key := generateCacheKey user_input context
  let store' := st.store.filter (fun p => !(p.1 == key)) ++ [(key, (result, now))]
  ⟨store'.filter (cacheFresh now ttl)⟩

/-! ## Rate limiter (`utils/metrics.py`, `check_rate_limit`) and the
rate-limiting middleware (`main.py`) -/

/-- Append to a `deque(maxlen=100)`-style queue: the oldest entries are
dropped from the front once the capacity is exceeded. -/
def dequeAppend (q : List Int) (x : Int) (maxlen : Nat) : List Int :=
  let q' := q ++ [x]
  if q'.length > maxlen then q'.drop (q'.length - maxlen) else q'

/-- `rate_limit_cache`: per-client-IP queue of admitted-request timestamps
(front = oldest). Missing IPs read as the empty queue (`defaultdict`). -/
structure RateLimitState where
  queues : List (String × List Int)
deriving DecidableEq

/-- The queue recorded for one client IP. -/
def queueOf (st : RateLimitState) (ip : String) : List Int :=
  (st.queues.lookup ip).getD []

/-- Replace one client IP's queue. -/
def setQueue (st : RateLimitState) (ip : String) (q : List Int) : RateLimitState :=
  ⟨(ip, q) :: st.queues.filter (fun p => !(p.1 == ip))⟩

/-- The `while client_requests and current_time - client_requests[0] > 60:
popleft()` loop: discard, from the front, entries older than 60 seconds. -/
def discardOld (q : List Int) (now : Int) : List Int :=
  q.dropWhile (fun t => decide (now - t > 60))

/-- `MetricsManager.check_rate_limit(client_ip, limit_per_minute)` at time
`now`: admit iff, after the discard loop, fewer than `limit` timestamps
remain; an admitted request appends its timestamp to the capacity-100
queue; the discard loop's mutation persists either way. -/
def checkRateLimit (st : RateLimitState) (ip : String) (limit : Nat) (now : Int) :
    Bool × RateLimitState :=
  let q := discardOld (queueOf st ip) now
  if q.length < limit then
    (true, setQueue st ip (dequeAppend q now 100))
  else
    (false, setQueue st ip q)

/-- Run a sequence of requests (same IP) through `check_rate_limit`,
collecting each admission decision. -/
def runRequests (st : RateLimitState) (ip : String) (limit : Nat) :
    List Int → List Bool × RateLimitState
  | [] => ([], st)
  | t :: ts =>
    let (b, st') := checkRateLimit st ip limit t
    let (bs, st'') := runRequests st' ip limit ts
    (b :: bs, st'')

/-- The observability paths that skip the rate-limit gate in
`rate_limiting_middleware`. -/
def bypassPaths : List String := ["/v1/health", "/health", "/metrics"]

/-- `rate_limiting_middleware`: whether the request reaches its handler
(`true`) or is answered 429 (`false`), plus the rate-limiter state left
behind. Bypass paths never consult the limiter. -/
def rateLimitingMiddleware (st : RateLimitState) (path client_ip : String)
    (limit : Nat) (now : Int) : Bool × RateLimitState :=
  if bypassPaths.contains path then (true, st)
  else checkRateLimit st client_ip limit now

/-! ## Health endpoint (`api/v1/health.py`, `get_health`) -/

/-- The body fields of `HealthCheckResponse` that depend on the probes. -/
structure HealthBody where
  status : String
  llm_connection : Bool
  cache_connection : Bool
deriving DecidableEq, Repr

/-- `get_health`, as a function of the two probe outcomes: computes
`is_healthy = llm_connected or True`, picks the status string and the
HTTP status code from it. -/
def getHealth (llm_connected cache_healthy : Bool) : Nat × HealthBody :=
  let is_healthy := llm_connected || true
  ((if is_healthy then 200 else 503),
   { status := if is_healthy then "healthy" else "unhealthy"
     llm_connection := llm_connected
     cache_connection := cache_healthy })

/-! ## Result validation (`intent_service.py`, `validate_result`) -/

/-- Per-entry check inside `validate_result`'s loop: a `quantity` value
must be numeric; a value under a key literally named `confidence` must be
numeric (a string raises `TypeError`, caught as invalid) and lie in
[0, 1]; every other key passes. In this model `intent` is well-typed and
`entities` is a mapping by construction. -/
def entryOk (k : String) (v : EntityVal) : Bool :=
  if k == "quantity" then v.isNum
  else if k == "confidence" then
    (match v with
     | .int n => decide ((0 : Nat) ≤ n ∧ n ≤ 1)
     | .str _ => false)
  else true

/-- `validate_result`. -/
def validateResult (r : IntentResult) : Bool :=
  decide ((0 : ℚ) ≤ r.confidence ∧ r.confidence ≤ 1)
    && r.entities.all (fun p => entryOk p.1 p.2)

/-- The single-analysis endpoint's validation step (`analyze_intent` in
`api/v1/intent.py`): an invalid result raises HTTP 500
("Intent analysis produced invalid result"); a valid one is returned. -/
def analyzeEndpointValidation (r : IntentResult) : Except Nat IntentResult :=
  if validateResult r then .ok r else .error 500

/-! ## Batch endpoint (`api/v1/intent.py`, `analyze_batch_intent`) -/

/-- One element of a batch request (`IntentAnalysisRequest`). -/
structure AnalysisInput where
  text : String
  context : Option String
  include_raw_response : Bool
deriving DecidableEq

/-- `IntentAnalysisResponse`: the classification result plus the `cached`
flag (the request id is attached at the envelope level). -/
structure IntentAnalysisResponse where
  result : IntentResult
  cached : Bool
deriving DecidableEq

/-- The synthesized per-item error response built in the
`except Exception` handlers: `intent=GRAB_DRINK`, `confidence=0.0`,
`entities={"error": msg}`, `raw_text=None`, `processing_time_ms=0`. -/
def synthBatchError (msg : String) : IntentAnalysisResponse :=
  ⟨{ intent := .grab_drink
     confidence := 0
     entities := [("error", .str msg)]
     raw_text := none
     processing_time_ms := some 0 }, false⟩

/-- `process_single_input`: its `try` body (cache probe, `analyze_intent`,
deferred cache/metrics tasks) is abstracted as `body`, whose `Except.error`
models a raised exception with its `str(e)` text. The surrounding
`except Exception` handler converts any exception into the synthesized
error response, so this function is total and never raises. -/
def processSingleInput (body : AnalysisInput → Except String (IntentResult × Bool))
    (inp : AnalysisInput) : IntentAnalysisResponse :=
  match body inp with
  | .ok (r, cached) => ⟨r, cached⟩
  | .error e => synthBatchError e

/-- `asyncio.gather` semantics: tasks finish in some completion `order`,
each completion pairing the task index with that task's value, and the
returned list holds, at position `i`, the value completed for task `i`
(`none` only if index `i` never completed, which a full completion order
rules out). -/
def gatherAssemble {α : Type} (n : Nat) (f : Fin n → α) (order : List (Fin n)) :
    List (Option α) :=
  (List.finRange n).map (fun i => (order.map (fun j => (j, f j))).lookup i)

/-- Accumulator step of the parallel branch's result loop: an
`isinstance(result, Exception)` slot increments `error_count` and appends
the synthesized `"Processing failed"` response; a normal slot increments
`success_count`. -/
def parAccum (acc : List IntentAnalysisResponse × Nat × Nat)
    (r : Except String IntentAnalysisResponse) :
    List IntentAnalysisResponse × Nat × Nat :=
  match r with
  | .error _ => (acc.1 ++ [synthBatchError "Processing failed"], acc.2.1, acc.2.2 + 1)
  | .ok v => (acc.1 ++ [v], acc.2.1 + 1, acc.2.2)

/-- `BatchIntentAnalysisResponse` totals. -/
structure BatchResponse where
  results : List IntentAnalysisResponse
  total_processed : Nat
  success_count : Nat
  error_count : Nat
deriving DecidableEq

/-- `analyze_batch_intent`: oversize batches get HTTP 400; otherwise the
items are processed through `process_single_input` — in parallel mode the
gathered values are reassembled in input order (see `gatherAssemble`) and
are all `Except.ok` because `process_single_input` catches every
exception; in sequential mode the loop's own `except` branch is likewise
unreachable, and each appended result increments `success_count`. -/
def analyzeBatch (inputs : List AnalysisInput)
    (body : AnalysisInput → Except String (IntentResult × Bool))
    (parallel : Bool) : Except Nat BatchResponse :=
  if inputs.length > 50 then .error 400
  else
    let folded :=
      if parallel then
        (inputs.map (fun inp =>
          (Except.ok (processSingleInput body inp) :
            Except String IntentAnalysisResponse))).foldl parAccum ([], 0, 0)
      else
        inputs.foldl
          (fun acc inp => (acc.1 ++ [processSingleInput body inp], acc.2.1 + 1, acc.2.2))
          ([], 0, 0)
    .ok { results := folded.1
          total_processed := inputs.length
          success_count := folded.2.1
          error_count := folded.2.2 }

end BevIntent

namespace BevIntent

/-! ## Helper lemmas -/

/-- Helper: the if-chain of `_fallback_analysis` computes exactly the
first-match-in-priority-order selection described by the spec. -/
theorem fallbackIntent_eq_claimPriorityIntent (s : String) :
    fallbackIntent s = claimPriorityIntent s := by
  unfold fallbackIntent claimPriorityIntent priorityTable
  cases h1 : deliver_keywords.any (fun k => strIn k s) <;>
  cases h2 : recommend_keywords.any (fun k => strIn k s) <;>
  cases h3 : cancel_keywords.any (fun k => strIn k s) <;>
  cases h4 : query_keywords.any (fun k => strIn k s) <;>
  cases h5 : modify_keywords.any (fun k => strIn k s) <;>
  simp [List.find?, h1, h2, h3, h4, h5]

/-- Helper: `List.all` is preserved by a conditional entity append. -/
theorem all_entryOk_addEnt {es : List (String × EntityVal)} {k : String}
    {v : Option EntityVal}
    (h1 : es.all (fun p => entryOk p.1 p.2) = true)
    (h2 : ∀ x, v = some x → entryOk k x = true) :
    (addEnt es k v).all (fun p => entryOk p.1 p.2) = true := by
  cases v with
  | none => simpa [addEnt] using h1
  | some x => simp [addEnt, List.all_append, h1, h2 x rfl]

/-- Helper: a string entity value under a key other than `quantity` and
`confidence` always passes `validate_result`'s per-entry check. -/
theorem entryOk_str_of_ne (k : String) (s : String)
    (hq : (k == "quantity") = false) (hc : (k == "confidence") = false) :
    entryOk k (.str s) = true := by
  simp [entryOk, hq, hc]

/-- Helper: every entity mapping produced by `_extract_entities_fallback`
passes `validate_result`'s per-entry checks. -/
theorem extractEntities_all_ok (input : String) :
    (extractEntitiesFallback input).all (fun p => entryOk p.1 p.2) = true := by
  unfold extractEntitiesFallback
  apply all_entryOk_addEnt
  · apply all_entryOk_addEnt
    · apply all_entryOk_addEnt
      · apply all_entryOk_addEnt
        · apply all_entryOk_addEnt
          · apply all_entryOk_addEnt
            · apply all_entryOk_addEnt
              · rfl
              · intro x hx
                obtain ⟨d, _, rfl⟩ := Option.map_eq_some'.mp hx
                exact entryOk_str_of_ne _ _ rfl rfl
            · intro x hx
              obtain ⟨d, _, rfl⟩ := Option.map_eq_some'.mp hx
              exact entryOk_str_of_ne _ _ rfl rfl
          · intro x hx
            obtain ⟨d, _, rfl⟩ := Option.map_eq_some'.mp hx
            exact entryOk_str_of_ne _ _ rfl rfl
        · intro x hx
          obtain ⟨d, _, rfl⟩ := Option.map_eq_some'.mp hx
          exact entryOk_str_of_ne _ _ rfl rfl
      · intro x hx
        obtain ⟨d, _, rfl⟩ := Option.map_eq_some'.mp hx
        exact entryOk_str_of_ne _ _ rfl rfl
    · intro x hx
      obtain ⟨d, _, rfl⟩ := Option.map_eq_some'.mp hx
      exact entryOk_str_of_ne _ _ rfl rfl
  · intro x hx
    obtain ⟨n, _, rfl⟩ := Option.map_eq_some'.mp hx
    rfl

/-- Helper: appending an entity under a different key does not change a
lookup. -/
theorem lookup_addEnt_of_ne {es : List (String × EntityVal)} {k k' : String}
    {v : Option EntityVal} (h : (k' == k) = false) :
    (addEnt es k v).lookup k' = es.lookup k' := by
  cases v with
  | none => rfl
  | some x =>
    induction es with
    | nil => simp [addEnt, List.lookup, h]
    | cons p es ih =>
      simp only [addEnt, List.cons_append, List.lookup]
      cases hpk : p.1 == k' <;> simp_all [addEnt, List.lookup]

/-- Helper: a first-match linear scan returns the head of the filtered
list. -/
theorem find?_eq_head?_filter {α : Type} (p : α → Bool) (l : List α) :
    l.find? p = (l.filter p).head? := by
  induction l with
  | nil => rfl
  | cons a l ih =>
    cases h : p a
    · rw [List.find?_cons_of_neg _ (by simp [h]), List.filter_cons_of_neg (by simp [h]), ih]
    · rw [List.find?_cons_of_pos _ h, List.filter_cons_of_pos h, List.head?_cons]

/-- Helper: the `drink_name` entry produced by the fallback extractor is
exactly the first drink literal found in the lowered input. -/
theorem drinkName_lookup (input : String) :
    (extractEntitiesFallback input).lookup "drink_name" =
      (firstLit (drinks_cn ++ drinks_en) (pyLower input)).map .str := by
  unfold extractEntitiesFallback
  rw [lookup_addEnt_of_ne (by decide), lookup_addEnt_of_ne (by decide),
      lookup_addEnt_of_ne (by decide), lookup_addEnt_of_ne (by decide),
      lookup_addEnt_of_ne (by decide), lookup_addEnt_of_ne (by decide)]
  cases h : firstLit (drinks_cn ++ drinks_en) (pyLower input) <;>
    simp [addEnt, List.lookup, h]

/-- Helper: filtering out a key makes its lookup miss. -/
theorem lookup_filter_out_none {β : Type} (l : List (String × β)) (key : String) :
    (l.filter (fun p => !(p.1 == key))).lookup key = none := by
  induction l with
  | nil => rfl
  | cons p l ih =>
    cases h : p.1 == key
    · have hk : (key == p.1) = false := by
        cases hk2 : key == p.1
        · rfl
        · have := eq_of_beq hk2
          rw [← this] at h
          simp at h
      simp [List.filter_cons, h, List.lookup, hk, ih]
    · simp [List.filter_cons, h, ih]

/-- Helper: a lookup that misses the first list continues in the second. -/
theorem lookup_append_of_none {β : Type} {l1 : List (String × β)} (l2 : List (String × β))
    (key : String) (h : l1.lookup key = none) :
    (l1 ++ l2).lookup key = l2.lookup key := by
  induction l1 with
  | nil => rfl
  | cons p l1 ih =>
    simp only [List.lookup, List.cons_append] at *
    cases hk : key == p.1
    · simp only [hk] at h ⊢
      exact ih h
    · simp [hk] at h

/-- Helper: right after `CacheService.set`, the stored entry is found under
its own key with the write timestamp. -/
theorem cacheSet_lookup_self (st : CacheState) (text : String) (context : Option String)
    (r : IntentResult) (now ttl : Int) (httl : 0 ≤ ttl) :
    (cacheSet st text r context now ttl).store.lookup (generateCacheKey text context) =
      some (r, now) := by
  simp only [cacheSet]
  set key := generateCacheKey text context with hkey
  have hfresh : cacheFresh now ttl (key, (r, now)) = true := by
    simp [cacheFresh]
    omega
  rw [List.filter_append]
  have h1 : ((st.store.filter (fun p => !(p.1 == key))).filter
      (cacheFresh now ttl)).lookup key = none := by
    rw [List.filter_comm]
    exact lookup_filter_out_none _ key
  rw [lookup_append_of_none _ _ h1]
  simp [List.filter_cons, hfresh, List.lookup]

/-- Helper: for one fixed `text`, two contexts whose `context or ''`
normalizations differ derive different cache keys. -/
theorem generateCacheKey_ne (text : String) (c c' : Option String)
    (h : c'.getD "" ≠ c.getD "") :
    (generateCacheKey text c' == generateCacheKey text c) = false := by
  cases hk : generateCacheKey text c' == generateCacheKey text c
  · rfl
  · exfalso
    apply h
    have heq := eq_of_beq hk
    unfold generateCacheKey at heq
    have hd := congrArg String.data heq
    simp only [String.data_append] at hd
    have hd2 := List.append_cancel_left hd
    exact String.ext hd2

/-- Helper: reading back the queue just written for an IP. -/
theorem queueOf_setQueue (st : RateLimitState) (ip : String) (q : List Int) :
    queueOf (setQueue st ip q) ip = q := by
  simp [queueOf, setQueue, List.lookup]

/-- Helper: a `dropWhile` whose predicate holds nowhere is the identity. -/
theorem dropWhile_eq_self_of {p : Int → Bool} :
    ∀ {q : List Int}, (∀ x ∈ q, p x = false) → q.dropWhile p = q
  | [], _ => rfl
  | t :: ts, h => by simp [List.dropWhile, h t (by simp)]

/-- Helper: running a concatenation of request sequences through the rate
limiter composes. -/
theorem runRequests_append (ip : String) (L : Nat) :
    ∀ (l1 l2 : List Int) (st : RateLimitState),
      runRequests st ip L (l1 ++ l2) =
        ((runRequests st ip L l1).1 ++
          (runRequests (runRequests st ip L l1).2 ip L l2).1,
         (runRequests (runRequests st ip L l1).2 ip L l2).2) := by
  intro l1
  induction l1 with
  | nil => intro l2 st; simp [runRequests]
  | cons t l1 ih =>
    intro l2 st
    simp only [List.cons_append, runRequests, List.append_eq]
    rw [ih l2 (checkRateLimit st ip L t).2]

/-- Helper: while the queue still has room (at most `L ≤ 100` entries ever
accumulate) and all timestamps lie in one 60-second window, every request
is admitted and the queue records them in arrival order. -/
theorem runRequests_all_admitted (ip : String) (L : Nat) (lo : Int) (hL : L ≤ 100) :
    ∀ (ts : List Int) (st : RateLimitState) (q : List Int),
      queueOf st ip = q →
      q.length + ts.length ≤ L →
      (∀ x ∈ q ++ ts, lo ≤ x ∧ x ≤ lo + 60) →
      (runRequests st ip L ts).1 = List.replicate ts.length true ∧
      queueOf (runRequests st ip L ts).2 ip = q ++ ts := by
  intro ts
  induction ts with
  | nil =>
    intro st q hq hlen hw
    simp [runRequests, hq]
  | cons t ts ih =>
    intro st q hq hlen hw
    have hwq : ∀ x ∈ q, lo ≤ x ∧ x ≤ lo + 60 := fun x hx => hw x (by simp [hx])
    have hwt : lo ≤ t ∧ t ≤ lo + 60 := hw t (by simp)
    have hdrop : discardOld q t = q := by
      apply dropWhile_eq_self_of
      intro x hx
      have h1 := hwq x hx
      simp only [decide_eq_false_iff_not]
      omega
    have hqlen : q.length < L := by
      simp only [List.length_cons] at hlen
      omega
    have happ : dequeAppend q t 100 = q ++ [t] := by
      simp only [dequeAppend]
      rw [if_neg]
      simp only [List.length_append, List.length_cons, List.length_nil, Nat.not_lt]
      omega
    have hcheck : checkRateLimit st ip L t = (true, setQueue st ip (q ++ [t])) := by
      simp only [checkRateLimit, discardOld] at *
      rw [hq, hdrop, if_pos hqlen, happ]
    have hrec := ih (setQueue st ip (q ++ [t])) (q ++ [t])
      (queueOf_setQueue st ip (q ++ [t]))
      (by simp only [List.length_append, List.length_cons, List.length_nil] at hlen ⊢; omega)
      (by
        intro x hx
        apply hw
        simp only [List.mem_append, List.mem_cons, List.mem_singleton] at hx ⊢
        tauto)
    simp only [runRequests, hcheck]
    refine ⟨?_, ?_⟩
    · simp [hrec.1, List.length_cons, List.replicate_succ]
    · simp [hrec.2]

/-- Helper: in an association list whose entries pair each index with that
index's task value, a lookup of a present index returns its task value. -/
theorem lookup_map_self {α : Type} {n : Nat} (f : Fin n → α) :
    ∀ (order : List (Fin n)) (i : Fin n), i ∈ order →
      (order.map (fun j => (j, f j))).lookup i = some (f i) := by
  intro order
  induction order with
  | nil => intro i hi; simp at hi
  | cons j os ih =>
    intro i hi
    simp only [List.map_cons, List.lookup]
    cases hij : i == j
    · have hne : i ≠ j := by simpa using hij
      have hmem : i ∈ os := by
        rcases List.mem_cons.mp hi with h | h
        · exact absurd h hne
        · exact h
      simp only [hij]
      exact ih i hmem
    · have : i = j := eq_of_beq hij
      subst this
      rfl

/-- Helper: whatever the completion order, as long as every task index
completes, the gather reassembly holds, at each position, that task's
value. -/
theorem gatherAssemble_complete {α : Type} {n : Nat} (f : Fin n → α)
    (order : List (Fin n)) (hord : ∀ i : Fin n, i ∈ order) :
    gatherAssemble n f order = (List.finRange n).map (fun i => some (f i)) := by
  unfold gatherAssemble
  apply List.map_congr_left
  intro i _
  exact lookup_map_self f order i (hord i)

/-- Helper: the parallel result loop over gathered values that are all
normal (no exception slot) appends every value and counts each as a
success. -/
theorem foldl_parAccum_ok (resps : List IntentAnalysisResponse) :
    ∀ (acc : List IntentAnalysisResponse × Nat × Nat),
      (resps.map (Except.ok (ε := String))).foldl parAccum acc =
        (acc.1 ++ resps, acc.2.1 + resps.length, acc.2.2) := by
  induction resps with
  | nil => intro acc; simp
  | cons r resps ih =>
    intro acc
    simp only [List.map_cons, List.foldl_cons, parAccum, ih, Prod.mk.injEq,
      List.length_cons]
    refine ⟨by simp, by omega, trivial⟩

/-- Helper: the sequential loop appends every per-item response and counts
each as a success. -/
theorem foldl_seq_ok (body : AnalysisInput → Except String (IntentResult × Bool)) :
    ∀ (inputs : List AnalysisInput) (acc : List IntentAnalysisResponse × Nat × Nat),
      inputs.foldl
        (fun acc inp => (acc.1 ++ [processSingleInput body inp], acc.2.1 + 1, acc.2.2)) acc =
        (acc.1 ++ inputs.map (processSingleInput body), acc.2.1 + inputs.length, acc.2.2) := by
  intro inputs
  induction inputs with
  | nil => intro acc; simp
  | cons inp inputs ih =>
    intro acc
    simp only [List.foldl_cons, ih, Prod.mk.injEq, List.map_cons, List.length_cons]
    refine ⟨by simp, by omega, trivial⟩

end BevIntent

namespace BevIntent

/-! ## Claim theorems -/

/-- C1: for every input string on which the LLM path fails (client failure
or unparsable output), the fallback analysis returns a result whose
confidence is exactly 0.6 (= 3/5) and whose intent is chosen by first
match in the fixed priority order deliver, recommend, cancel, query,
modify over the fixed keyword sets, with `grab_drink` when no keyword set
matches. -/
theorem c1_fallback_confidence_and_priority (input : String) (outcome : LLMOutcome)
    (raw : Bool) (ms : Nat) (h : llmPathFails outcome = true) :
    (analyzeIntent input outcome raw ms).confidence = mkRat 3 5 ∧
    (analyzeIntent input outcome raw ms).intent = claimPriorityIntent input := by
  cases outcome with
  | ok content p =>
    cases p with
    | parsed i c es => simp [llmPathFails] at h
    | unparsable e => exact ⟨rfl, fallbackIntent_eq_claimPriorityIntent input⟩
  | failed m => exact ⟨rfl, fallbackIntent_eq_claimPriorityIntent input⟩

/-- C1 witness: a concrete LLM failure on a deliver-intent utterance. -/
theorem c1_fallback_witness :
    llmPathFails (.failed "LLM API timeout") = true ∧
    (analyzeIntent "把咖啡送到会议室" (.failed "LLM API timeout") false 0).confidence =
      mkRat 3 5 ∧
    (analyzeIntent "把咖啡送到会议室" (.failed "LLM API timeout") false 0).intent =
      claimPriorityIntent "把咖啡送到会议室" :=
  ⟨rfl, c1_fallback_confidence_and_priority "把咖啡送到会议室"
    (.failed "LLM API timeout") false 0 rfl⟩

/-- C2: for every batch of N inputs (1 ≤ N ≤ 50), in both parallel and
sequential mode, the response satisfies
success_count + error_count = total_processed = len(results) = N, with
results[i] the result of inputs[i]; in parallel mode the gather
reassembly is by task index, independent of the completion order. -/
theorem c2_batch_invariant_and_ordering (inputs : List AnalysisInput)
    (body : AnalysisInput → Except String (IntentResult × Bool))
    (parallel : Bool) (order : List (Fin inputs.length))
    (hn : 1 ≤ inputs.length) (h50 : inputs.length ≤ 50)
    (hord : ∀ i : Fin inputs.length, i ∈ order) :
    ∃ resp, analyzeBatch inputs body parallel = .ok resp ∧
      resp.success_count + resp.error_count = resp.total_processed ∧
      resp.total_processed = resp.results.length ∧
      resp.results.length = inputs.length ∧
      resp.results = inputs.map (processSingleInput body) ∧
      gatherAssemble inputs.length
          (fun i => processSingleInput body (inputs.get i)) order =
        (List.finRange inputs.length).map
          (fun i => some (processSingleInput body (inputs.get i))) := by
  have hgather := gatherAssemble_complete
    (fun i => processSingleInput body (inputs.get i)) order hord
  refine ⟨{ results := inputs.map (processSingleInput body),
            total_processed := inputs.length,
            success_count := inputs.length,
            error_count := 0 }, ?_, by simp, by simp, by simp, rfl, hgather⟩
  unfold analyzeBatch
  rw [if_neg (by omega)]
  have hmap : inputs.map
      (fun inp => (Except.ok (processSingleInput body inp) :
        Except String IntentAnalysisResponse)) =
      (inputs.map (processSingleInput body)).map (Except.ok (ε := String)) := by
    simp [List.map_map]
  cases parallel
  · have hs := foldl_seq_ok body inputs ([], 0, 0)
    simp only [Bool.false_eq_true, if_false, hs]
    simp
  · have hp := foldl_parAccum_ok (inputs.map (processSingleInput body)) ([], 0, 0)
    simp only [if_true, hmap, hp]
    simp

/-- C2 witness: a two-item parallel batch whose completion order is
reversed. -/
theorem c2_batch_witness :
    ∃ resp, analyzeBatch
        [⟨"给我来一杯拿铁", none, false⟩, ⟨"取消订单", none, false⟩]
        (fun _ => .ok (⟨.grab_drink, 0, [], none, some 0⟩, false)) true = .ok resp ∧
      resp.success_count + resp.error_count = resp.total_processed ∧
      resp.total_processed = resp.results.length ∧
      resp.results.length =
        ([⟨"给我来一杯拿铁", none, false⟩,
          (⟨"取消订单", none, false⟩ : AnalysisInput)] : List AnalysisInput).length ∧
      resp.results =
        ([⟨"给我来一杯拿铁", none, false⟩,
          (⟨"取消订单", none, false⟩ : AnalysisInput)] : List AnalysisInput).map
          (processSingleInput (fun _ => .ok (⟨.grab_drink, 0, [], none, some 0⟩, false))) ∧
      gatherAssemble 2
          (fun i => processSingleInput
            (fun _ => .ok (⟨.grab_drink, 0, [], none, some 0⟩, false))
            (([⟨"给我来一杯拿铁", none, false⟩,
               (⟨"取消订单", none, false⟩ : AnalysisInput)] : List AnalysisInput).get i)) [1, 0] =
        (List.finRange 2).map
          (fun i => some (processSingleInput
            (fun _ => .ok (⟨.grab_drink, 0, [], none, some 0⟩, false))
            (([⟨"给我来一杯拿铁", none, false⟩,
               (⟨"取消订单", none, false⟩ : AnalysisInput)] : List AnalysisInput).get i))) :=
  c2_batch_invariant_and_ordering
    [⟨"给我来一杯拿铁", none, false⟩, ⟨"取消订单", none, false⟩]
    (fun _ => .ok (⟨.grab_drink, 0, [], none, some 0⟩, false)) true
    [⟨1, by decide⟩, ⟨0, by decide⟩] (by decide) (by decide) (by decide)

/-- C3: evaluating the batch endpoint at the repository's own partial-failure
test scenario (`test_batch_analyze_partial_failure`: item 2's analysis
raises "Analysis failed"): the failing slot does hold the synthesized
`grab_drink`/0.0/`entities.error` result and the batch is not aborted, but
the item is counted in `success_count` (= 2), not `error_count` (= 0),
because `process_single_input` catches the exception internally; the
repository's test asserts success_count = 1 and error_count = 1. -/
theorem c3_batch_error_counting_bug :
    analyzeBatch
      [⟨"good coffee", none, false⟩, ⟨"this should fail", none, false⟩]
      (fun inp => if strIn "fail" inp.text then .error "Analysis failed"
        else .ok (⟨.grab_drink, mkRat 9 10, [], none, some 100⟩, false))
      true =
    .ok { results := [⟨⟨.grab_drink, mkRat 9 10, [], none, some 100⟩, false⟩,
                      synthBatchError "Analysis failed"],
          total_processed := 2,
          success_count := 2,
          error_count := 0 } ∧
    (synthBatchError "Analysis failed").result.intent = .grab_drink ∧
    (synthBatchError "Analysis failed").result.confidence = 0 ∧
    (synthBatchError "Analysis failed").result.entities.lookup "error" =
      some (.str "Analysis failed") := by
  refine ⟨rfl, rfl, by decide, rfl⟩

/-- C4: the circuit breaker starting Closed refuses execution after 5
consecutive recorded failures (after only 4 it still executes), keeps
refusing until 60 seconds have elapsed since the last recorded failure,
then allows one execution in HalfOpen; a recorded success there resets
`failure_count` to 0 and returns to Closed, and a recorded failure there
returns to Open with `last_failure_time` refreshed. -/
theorem c4_circuit_breaker_lifecycle (t1 t2 t3 t4 t5 t t' : Int) :
    (failFour t1 t2 t3 t4).state = .closed ∧
    (canExecute (failFour t1 t2 t3 t4) t).1 = true ∧
    (failFive t1 t2 t3 t4 t5).state = .opened ∧
    (failFive t1 t2 t3 t4 t5).failure_count = 5 ∧
    (failFive t1 t2 t3 t4 t5).last_failure_time = some t5 ∧
    (t - t5 ≤ 60 → (canExecute (failFive t1 t2 t3 t4 t5) t).1 = false) ∧
    (t - t5 > 60 →
      (canExecute (failFive t1 t2 t3 t4 t5) t).1 = true ∧
      (canExecute (failFive t1 t2 t3 t4 t5) t).2.state = .halfOpen ∧
      (onSuccess (canExecute (failFive t1 t2 t3 t4 t5) t).2).failure_count = 0 ∧
      (onSuccess (canExecute (failFive t1 t2 t3 t4 t5) t).2).state = .closed ∧
      (onFailure (canExecute (failFive t1 t2 t3 t4 t5) t).2 t').state = .opened ∧
      (onFailure (canExecute (failFive t1 t2 t3 t4 t5) t).2 t').last_failure_time =
        some t') := by
  have hcb4 : failFour t1 t2 t3 t4 = ⟨5, 60, 4, some t4, .closed⟩ := by
    simp [failFour, onFailure, CircuitBreaker.init]
  have hcb : failFive t1 t2 t3 t4 t5 = ⟨5, 60, 5, some t5, .opened⟩ := by
    simp [failFive, hcb4, onFailure]
  refine ⟨by rw [hcb4], by rw [hcb4]; rfl, by rw [hcb], by rw [hcb], by rw [hcb], ?_, ?_⟩
  · intro h
    rw [hcb]
    simp [canExecute, show ¬(t - t5 > (60 : Int)) from by omega]
  · intro h
    rw [hcb]
    have hgt : (t - t5 > (60 : Int)) := h
    simp [canExecute, hgt, onSuccess, onFailure]

/-- C4 witness: five failures at time 0; probing at 30 seconds refuses,
probing at 61 seconds half-opens, and both HalfOpen outcomes behave as
claimed. -/
theorem c4_circuit_breaker_witness :
    ((30 : Int) - 0 ≤ 60) ∧ ((61 : Int) - 0 > 60) ∧
    (canExecute (failFive 0 0 0 0 0) 30).1 = false ∧
    (canExecute (failFive 0 0 0 0 0) 61).1 = true ∧
    (onFailure (canExecute (failFive 0 0 0 0 0) 61).2 62).last_failure_time = some 62 := by
  have h := c4_circuit_breaker_lifecycle 0 0 0 0 0 30 62
  have h' := c4_circuit_breaker_lifecycle 0 0 0 0 0 61 62
  refine ⟨by norm_num, by norm_num, h.2.2.2.2.2.1 (by norm_num), ?_, ?_⟩
  · exact (h'.2.2.2.2.2.2 (by norm_num)).1
  · exact (h'.2.2.2.2.2.2 (by norm_num)).2.2.2.2.2

end BevIntent

namespace BevIntent

/-- C5 counterexample: the claim "a get with the same text but a different
context (including context absent versus present) returns absent" fails:
a result stored with an absent context is returned by a get with the
present-but-empty context `some ""`, because `context or ''` maps both to
the same cache key. -/
theorem c5_cache_context_counterexample :
    (some "" : Option String) ≠ none ∧
    (cacheGet
      (cacheSet ⟨[]⟩ "你好" ⟨.grab_drink, mkRat 9 10, [], none, some 1⟩ none 0 3600)
      "你好" (some "") 0 3600).1 =
      some ⟨.grab_drink, mkRat 9 10, [], none, some 1⟩ :=
  ⟨by simp, by decide⟩

/-- C5 (amended): with a non-negative TTL and no expiry between the
operations, a set followed by a get with the same (text, context) returns
exactly the stored result (every field, hence intent, confidence,
entities, and raw_text, is preserved); and, starting from an empty cache,
a get with the same text but a context whose `context or ''` normalization
differs (None and "" being identified by the key derivation) returns
absent. -/
theorem c5_cache_roundtrip_amended (st : CacheState) (text : String)
    (context : Option String) (r : IntentResult) (tset tget ttl : Int)
    (httl : 0 ≤ ttl) (hfr : tget - tset ≤ ttl) :
    (cacheGet (cacheSet st text r context tset ttl) text context tget ttl).1 = some r ∧
    (∀ context', context'.getD "" ≠ context.getD "" →
      (cacheGet (cacheSet ⟨[]⟩ text r context tset ttl) text context' tget ttl).1 = none) := by
  constructor
  · simp only [cacheGet]
    rw [cacheSet_lookup_self st text context r tset ttl httl]
    simp only []
    rw [if_neg (by omega)]
  · intro c' hc
    have hstore : (cacheSet ⟨[]⟩ text r context tset ttl).store =
        [(generateCacheKey text context, (r, tset))] := by
      simp only [cacheSet]
      simp [cacheFresh, List.filter_cons]
      omega
    simp only [cacheGet, hstore]
    have hk := generateCacheKey_ne text context c' hc
    simp [List.lookup, hk]

/-- C5 witness: a concrete store/read pair, hitting on the same context
and missing on a genuinely different one. -/
theorem c5_cache_roundtrip_witness :
    (cacheGet
      (cacheSet ⟨[]⟩ "来杯咖啡" ⟨.grab_drink, mkRat 4 5, [("drink_name", .str "咖啡")],
        some "raw", some 7⟩ (some "ctx") 0 3600)
      "来杯咖啡" (some "ctx") 10 3600).1 =
      some ⟨.grab_drink, mkRat 4 5, [("drink_name", .str "咖啡")], some "raw", some 7⟩ ∧
    (cacheGet
      (cacheSet ⟨[]⟩ "来杯咖啡" ⟨.grab_drink, mkRat 4 5, [("drink_name", .str "咖啡")],
        some "raw", some 7⟩ (some "ctx") 0 3600)
      "来杯咖啡" none 10 3600).1 = none := by
  have h := c5_cache_roundtrip_amended ⟨[]⟩ "来杯咖啡"
    (some "ctx") ⟨.grab_drink, mkRat 4 5, [("drink_name", .str "咖啡")], some "raw", some 7⟩
    0 10 3600 (by norm_num) (by norm_num)
  exact ⟨h.1, h.2 none (by decide)⟩

/-- C6 counterexample: with `limit_per_minute = 101`, 102 requests from
one IP at the same instant (all inside one 60-second window) should, per
the claim, end in a rejection of the 102nd request; the capacity-100 deque
silently drops the oldest timestamp instead and the 102nd request is
admitted. -/
theorem c6_rate_limit_counterexample :
    (runRequests ⟨[]⟩ "10.0.0.1" 101 (List.replicate 102 (0 : Int))).1.getLast? =
      some true := by decide

/-- C6 (amended): `check_rate_limit` admits exactly when, after discarding
entries older than 60 seconds, fewer than L timestamps remain; an admitted
request appends its timestamp (to the capacity-100 deque) and a rejected
one records nothing beyond the discard; the observability paths bypass the
gate unconditionally; and for L ≤ 100 (the deque capacity; the deployed
default limit is 100), the (L+1)-th request from one IP within a
60-second window is rejected while the first L are admitted. -/
theorem c6_rate_limit_amended (st : RateLimitState) (ip : String) (L : Nat)
    (now : Int) (hL : L ≤ 100) :
    (((checkRateLimit st ip L now).1 = true ↔
        (discardOld (queueOf st ip) now).length < L) ∧
     ((checkRateLimit st ip L now).1 = true →
        queueOf (checkRateLimit st ip L now).2 ip =
          dequeAppend (discardOld (queueOf st ip) now) now 100) ∧
     ((checkRateLimit st ip L now).1 = false →
        queueOf (checkRateLimit st ip L now).2 ip = discardOld (queueOf st ip) now)) ∧
    (∀ path, path ∈ bypassPaths → rateLimitingMiddleware st path ip L now = (true, st)) ∧
    (∀ (lo : Int) (ts : List Int) (tl : Int),
       queueOf st ip = [] → ts.length = L →
       (∀ x ∈ ts ++ [tl], lo ≤ x ∧ x ≤ lo + 60) →
       (runRequests st ip L (ts ++ [tl])).1 = List.replicate L true ++ [false]) := by
  refine ⟨?_, ?_, ?_⟩
  · by_cases hlt : (discardOld (queueOf st ip) now).length < L <;>
      simp [checkRateLimit, hlt, queueOf_setQueue]
  · intro path hpath
    simp [rateLimitingMiddleware, List.contains, List.elem_eq_mem, hpath]
  · intro lo ts tl hq hlen hw
    rw [runRequests_append ip L ts [tl] st]
    have hphase := runRequests_all_admitted ip L lo hL ts st [] hq
      (by simp [hlen]) (by simpa using fun x hx => hw x (by simp [hx]))
    have hqts : queueOf (runRequests st ip L ts).2 ip = ts := by
      simpa using hphase.2
    have hwts : ∀ x ∈ ts, lo ≤ x ∧ x ≤ lo + 60 := fun x hx => hw x (by simp [hx])
    have hwtl : lo ≤ tl ∧ tl ≤ lo + 60 := hw tl (by simp)
    have hdrop : discardOld ts tl = ts := by
      apply dropWhile_eq_self_of
      intro x hx
      have := hwts x hx
      simp only [decide_eq_false_iff_not]
      omega
    have hreject : (checkRateLimit (runRequests st ip L ts).2 ip L tl).1 = false := by
      simp only [checkRateLimit, discardOld] at *
      rw [hqts, hdrop]
      rw [if_neg (by omega)]
    have hone : (runRequests (runRequests st ip L ts).2 ip L [tl]).1 = [false] := by
      simp [runRequests]
      exact hreject
    rw [hphase.1, hone]
    simp [hlen]

/-- C6 witness: limit 2, three requests inside one window: admitted,
admitted, rejected; and a health-path request bypasses the gate. -/
theorem c6_rate_limit_witness :
    (runRequests ⟨[]⟩ "10.0.0.1" 2 ([0, 1] ++ [2])).1 =
      List.replicate 2 true ++ [false] ∧
    rateLimitingMiddleware ⟨[]⟩ "/v1/health" "10.0.0.1" 2 0 = (true, ⟨[]⟩) := by
  have h := c6_rate_limit_amended ⟨[]⟩ "10.0.0.1" 2 0 (by norm_num)
  exact ⟨h.2.2 0 [0, 1] 2 rfl rfl (by decide), h.2.1 "/v1/health" (by decide)⟩

/-- C7 counterexample: changing the letter case of the English keyword
occurrence ("deliver" to "Deliver") changes the intent the fallback
classifier assigns, so the fallback intent matching is not
case-insensitive. -/
theorem c7_case_insensitive_counterexample :
    (analyzeIntent "please deliver a coffee" (.failed "down") false 0).intent ≠
      (analyzeIntent "please Deliver a coffee" (.failed "down") false 0).intent := by
  decide

/-- C7 (amended): fallback intent keyword matching is case-sensitive — the
keywords are substring-tested against the raw input (the lowered copy the
code computes is unused there), so a lowercase English keyword occurrence
matches while a differently-cased occurrence of the same keyword may fall
through to `grab_drink`. -/
theorem c7_case_sensitive_amended (err : String) (raw : Bool) (ms : Nat) :
    strIn "deliver" "please deliver a coffee" = true ∧
    strIn "deliver" "please Deliver a coffee" = false ∧
    (fallbackAnalysis "please deliver a coffee" err raw ms).intent = .deliver_drink ∧
    (fallbackAnalysis "please Deliver a coffee" err raw ms).intent = .grab_drink := by
  refine ⟨by decide, by decide, ?_, ?_⟩
  · show fallbackIntent "please deliver a coffee" = .deliver_drink
    decide
  · show fallbackIntent "please Deliver a coffee" = .grab_drink
    decide

/-- C8: when the input contains two or more drink-name literals, the
extracted `drink_name` is the first literal of the fixed scan list
(Chinese list before English list) that occurs in the lowered input —
i.e. the head of the literal list filtered by occurrence — not the literal
appearing earliest in the input text. -/
theorem c8_drink_scan_priority (input : String)
    (_h : 2 ≤ ((drinks_cn ++ drinks_en).filter
        (fun d => strIn d (pyLower input))).length) :
    (extractEntitiesFallback input).lookup "drink_name" =
      (((drinks_cn ++ drinks_en).filter
        (fun d => strIn d (pyLower input))).head?).map .str := by
  rw [drinkName_lookup, firstLit, find?_eq_head?_filter]

/-- C8 witness: "可乐和拿铁" contains 可乐 (earlier in the text, later in
the list) and 拿铁 (list head); the extracted drink is 拿铁. -/
theorem c8_drink_scan_witness :
    2 ≤ ((drinks_cn ++ drinks_en).filter
        (fun d => strIn d (pyLower "可乐和拿铁"))).length ∧
    (extractEntitiesFallback "可乐和拿铁").lookup "drink_name" =
      some (.str "拿铁") := by
  refine ⟨by decide, ?_⟩
  rw [c8_drink_scan_priority "可乐和拿铁" (by decide)]
  decide

/-- C9: for every combination of the LLM connectivity probe and the cache
health probe outcomes, the health endpoint answers HTTP 200 with status
"healthy"; the 503/"unhealthy" branch is unreachable. -/
theorem c9_health_always_healthy (llm cache : Bool) :
    (getHealth llm cache).1 = 200 ∧ (getHealth llm cache).2.status = "healthy" := by
  cases llm <;> simp [getHealth]

/-- C10: every result produced by the fallback analysis passes
`validate_result` (intent well-typed, confidence 0.6 in [0,1], entities a
mapping whose quantity values are integers), so the single-analysis
endpoint's 500 "invalid result" branch is unreachable on the fallback
path. -/
theorem c10_fallback_always_valid (input err : String) (raw : Bool) (ms : Nat) :
    validateResult (fallbackAnalysis input err raw ms) = true ∧
    analyzeEndpointValidation (fallbackAnalysis input err raw ms) =
      .ok (fallbackAnalysis input err raw ms) := by
  have hv : validateResult (fallbackAnalysis input err raw ms) = true := by
    unfold validateResult fallbackAnalysis
    simp [extractEntities_all_ok]
    decide
  exact ⟨hv, by simp [analyzeEndpointValidation, hv]⟩

end BevIntent
